import Mathlib

/-!
Verification development for the shorthand matcher of `pkg/parser/parser.go`
(alfred-gh-shorthand).  The four regular expressions, the configurable
`Parser.Parse` method and the simplified top-level `Parse` function are
embedded as executable Lean definitions over `List Char`, mirroring the Go
source line by line.  Go's `regexp` package uses leftmost-first (Perl-style)
matching; each anchored pattern is compiled here into an explicit matcher
whose backtracking behaviour is spelled out in comments at the definition.
-/

namespace GhShorthand

/-! ### Character classes of the Go regular expressions (ASCII, as in Go) -/

/-- Character class `[A-Za-z0-9]`. -/
def isAlnum (c : Char) : Bool :=
  ('A' ≤ c && c ≤ 'Z') || ('a' ≤ c && c ≤ 'z') || ('0' ≤ c && c ≤ '9')

/-- Character class `[-A-Za-z0-9]` (owner / bare-user body characters). -/
def isUserChar (c : Char) : Bool := isAlnum c || c == '-'

/-- Go regexp `\w`, i.e. `[0-9A-Za-z_]`. -/
def isWordChar (c : Char) : Bool := isAlnum c || c == '_'

/-- Character class `[\w.\-]` (repository-name characters). -/
def isNameChar (c : Char) : Bool := isWordChar c || c == '.' || c == '-'

/-- Character class `\d`, i.e. `[0-9]`. -/
def isDigitChar (c : Char) : Bool := '0' ≤ c && c ≤ '9'

/-- Go regexp `\s`, i.e. `[\t\n\f\r ]`. -/
def isSpaceChar (c : Char) : Bool :=
  c == ' ' || c == '\t' || c == '\n' || c == '\x0c' || c == '\r'

/-! ### The four regular expressions of parser.go -/

/-- Strip one copy of `c` from the front of `l` if present: the matcher for
an optional literal (` ?` and `#?` in the issue and path patterns). -/
def stripOne (c : Char) (l : List Char) : List Char :=
  match l with
  | x :: t => if x = c then t else l
  | [] => l

/-- Largest `p` with `1 ≤ p ≤ n` satisfying `pred`, scanning downward:
models the backtracking of a greedy quantifier that yields from the maximal
width down until the rest of the pattern matches. -/
def largestLe : Nat → (Nat → Bool) → Option Nat
  | 0, _ => none
  | Nat.succ k, pred => if pred (k + 1) then some (k + 1) else largestLe k pred

/-- Go regexp `\b` at offset `p` into the run `run` (1 ≤ p ≤ run.length),
where `after` is the character following the run in the input (none at end
of input): a boundary holds iff exactly one of the neighbouring characters
is a `\w` character. -/
def wordBoundaryAt (run : List Char) (after : Option Char) (p : Nat) : Bool :=
  match run.get? (p - 1) with
  | none => false
  | some prev =>
    let nxt : Option Char :=
      match run.get? p with
      | some c => some c
      | none => after
    isWordChar prev != (match nxt with | some c => isWordChar c | none => false)

/-- Model of `userRegexp.FindString`: `^([A-Za-z0-9][-A-Za-z0-9]*)\b`, returning the
length of the match.  The leading class is mandatory; the greedy star takes
the maximal run of `[-A-Za-z0-9]` and backtracks until `\b` holds, so the
result is the largest prefix length of the run at which a word boundary
occurs. -/
def userFind (l : List Char) : Option Nat :=
  match l with
  | [] => none
  | c :: rest =>
    if isAlnum c then
      let run := c :: rest.takeWhile isUserChar
      let after := (l.drop run.length).head?
      largestLe run.length (fun p => wordBoundaryAt run after p)
    else none

/-- Model of `userRepoRegexp.FindString`: `^([A-Za-z0-9][-A-Za-z0-9]*)/([\w\.\-]*)(\A|\z|\w)`,
returning the length of the match.  The owner run cannot backtrack (none of
its characters is `/`, so `/` must follow the maximal run).  After `/` the
name group greedily takes the maximal run of `[\w.\-]`; the third group
then needs end-of-input (`\z`; `\A` can never match there) or a single `\w`
character, so on backtracking the match ends at the largest position whose
last consumed name character is a `\w` character. -/
def userRepoFind (l : List Char) : Option Nat :=
  match l with
  | [] => none
  | c :: rest =>
    if isAlnum c then
      let owner := c :: rest.takeWhile isUserChar
      match l.drop owner.length with
      | '/' :: rest2 =>
        let run := rest2.takeWhile isNameChar
        if run.length = rest2.length then
          -- the name run reaches the end of input: `\z` matches
          some (owner.length + 1 + run.length)
        else
          match largestLe run.length
              (fun j => match run.get? (j - 1) with
                        | some ch => isWordChar ch
                        | none => false) with
          | some j => some (owner.length + 1 + j)
          | none => none
      | _ => none
    else none

/-- Model of `issueRegexp`: `^ ?#?([1-9]\d*)$`; on a match the whole input is
consumed (the pattern is anchored on both sides) and the digit group is
returned.  `[1-9]` is a digit other than `'0'`. -/
def issueMatch (l : List Char) : Option (List Char) :=
  let l2 := stripOne '#' (stripOne ' ' l)
  match l2 with
  | c :: t =>
    if isDigitChar c && c != '0' && t.all isDigitChar then some (c :: t) else none
  | [] => none

/-- Model of `pathRegexp`: `^ ?(/\S*)$`; on a match the whole input is consumed and
the group (a `/`-led run of non-space characters) is returned. -/
def pathMatch (l : List Char) : Option (List Char) :=
  let l1 := stripOne ' ' l
  match l1 with
  | c :: t =>
    if c = '/' && t.all (fun x => !isSpaceChar x) then some (c :: t) else none
  | [] => none

/-- Query trimming `strings.TrimPrefix(strings.TrimRight(input, " "), " ")`: drop all
trailing spaces, then at most one leading space (parser.go line 134/175). -/
def trimQuery (l : List Char) : List Char :=
  let r := (l.reverse.dropWhile (fun c => c == ' ')).reverse
  match r with
  | ' ' :: t => t
  | _ => r

/-! ### Result types

The result type and its helper methods live in a file of this repository
that is not under `src/` (`parser.go` only calls them), so they are
modelled from the spec here. -/

/-- Modelled from the spec: the missing result type behind `*NewResult`.
The spec's `repository` field (§3, "form `owner/name`") is stored split
into `User` (the owner portion) and `Repo` (the name portion): parser.go
reads the owner portion back through `res.User` for user-table expansion
(spec §4.1 step 1), and a bare user alone occupies `User` with `Repo`
empty (spec §3: at most one of repository or bare user from one prefix).
Absent optional fields are the empty string, matching Go zero values and
the spec's "fully empty/zero-valued Result denotes no match". -/
structure NewResult where
  User : String := ""
  Repo : String := ""
  RepoShorthand : String := ""
  UserShorthand : String := ""
  Issue : String := ""
  Path : String := ""
  Query : String := ""
  deriving Repr, DecidableEq

/-- Modelled from the spec: splitting a canonical `owner/name` repository
identifier (§3) at its first `/` into owner and name portions, as a
`strings.SplitN(s, "/", 2)` does; a string with no `/` keeps everything in
the owner portion. -/
def splitRepo (s : String) : String × String :=
  let owner := s.data.takeWhile (fun c => c != '/')
  (String.mk owner, String.mk (s.data.drop (owner.length + 1)))

/-- Modelled from the spec: `res.SetRepo(repo)` stores the repository
identifier, owner portion in `User` and name portion in `Repo`
(spec §4.1 step 1 reads the owner back for user-table expansion). -/
def NewResult.SetRepo (r : NewResult) (s : String) : NewResult :=
  { r with User := (splitRepo s).1, Repo := (splitRepo s).2 }

/-- Modelled from the spec: `res.HasRepo()` — a repository was resolved,
i.e. both portions of the `owner/name` identifier are present. -/
def NewResult.HasRepo (r : NewResult) : Bool := r.User != "" && r.Repo != ""

/-- Modelled from the spec: `res.HasUser()` — a bare user is populated
(spec §3: a bare user, as opposed to a repository owner, occupies `User`
with no repository name alongside). -/
def NewResult.HasUser (r : NewResult) : Bool := r.User != "" && r.Repo == ""

/-- Spec-level view of the `repository` field of §3: the rendered
`owner/name` identifier when one was resolved, absent (empty) otherwise. -/
def NewResult.repository (r : NewResult) : String :=
  if r.HasRepo then r.User ++ "/" ++ r.Repo else ""

/-- Modelled from the spec: the missing result type behind the simplified
entry point's `Result`, with its `RepoMatch`/`UserMatch` shorthand-used
fields; stored split like `NewResult`. -/
structure Result where
  User : String := ""
  Repo : String := ""
  RepoMatch : String := ""
  UserMatch : String := ""
  Query : String := ""
  deriving Repr, DecidableEq

/-- Modelled from the spec: `res.SetRepo(repo)` of the simplified entry
point's result type, as for `NewResult`. -/
def Result.SetRepo (r : Result) (s : String) : Result :=
  { r with User := (splitRepo s).1, Repo := (splitRepo s).2 }

/-- Spec-level view of the simplified result's repository field. -/
def Result.repository (r : Result) : String :=
  if r.User != "" && r.Repo != "" then r.User ++ "/" ++ r.Repo else ""

/-! ### The configurable parser (parser.go lines 9–140) -/

/-- The `Parser` struct: two shorthand tables (association lists, looked
up by key), a default repository, and the capability switches set by the
functional options `RequireRepo`, `WithRepo`, `WithUser`, `WithIssue`,
`WithPath`, `WithQuery`. -/
structure Parser where
  repoMap : List (String × String) := []
  userMap : List (String × String) := []
  defaultRepo : String := ""
  requireRepo : Bool := false
  parseRepo : Bool := false
  parseUser : Bool := false
  parseIssue : Bool := false
  parsePath : Bool := false
  parseQuery : Bool := false

/-- Lines 64–88 of `Parse`: the owner/repo and bare-token recognisers with
their shorthand expansion, returning the partial result and the remaining
input.  Nothing is attempted unless `parseRepo` is set (the whole block is
inside `if p.parseRepo`). -/
def step12 (p : Parser) (l : List Char) : NewResult × List Char :=
  if p.parseRepo then
    match userRepoFind l with
    | some n =>
      let r0 := NewResult.SetRepo {} (String.mk (l.take n))
      let r1 :=
        match List.lookup r0.User p.userMap with
        | some su => { r0 with UserShorthand := r0.User, User := su }
        | none => r0
      (r1, l.drop n)
    | none =>
      match userFind l with
      | some m =>
        let u := String.mk (l.take m)
        match List.lookup u p.repoMap with
        | some sr =>
          let r := NewResult.SetRepo {} sr
          ({ r with RepoShorthand := u }, l.drop m)
        | none =>
          if p.parseUser then
            match List.lookup u p.userMap with
            | some su => ({ User := su, UserShorthand := u }, l.drop m)
            | none => ({ User := u }, l.drop m)
          else ({}, l)
      | none => ({}, l)
  else ({}, l)

/-- Lines 90–110 of `Parse`: the default-repository fallback.  `none`
models the early `return &NewResult{}` when a numeric-looking bare user is
followed by leftover input. -/
def defaultStep (p : Parser) (st : NewResult × List Char) :
    Option (NewResult × List Char) :=
  let res := st.1
  let l := st.2
  if p.parseRepo && !res.HasRepo && p.defaultRepo != "" then
    if p.parseUser && res.HasUser then
      if (issueMatch res.User.data).isSome then
        if l.isEmpty then
          some (({ res with Issue := res.User }).SetRepo p.defaultRepo, l)
        else none
      else some (res, l)
    else some (res.SetRepo p.defaultRepo, l)
  else some (res, l)

/-- Lines 113–116 of `Parse`: with `requireRepo` set, a result without a
resolved repository is rejected (`none`, becoming the empty result). -/
def requireStep (p : Parser) (st : NewResult × List Char) :
    Option (NewResult × List Char) :=
  if p.requireRepo && !st.1.HasRepo then none else some st

/-- Lines 118–123 of `Parse`: the issue recogniser.  On a match the whole
remaining input is consumed (`issueRegexp` is anchored on both sides). -/
def issueStep (p : Parser) (st : NewResult × List Char) : NewResult × List Char :=
  if p.parseIssue then
    match issueMatch st.2 with
    | some g => ({ st.1 with Issue := String.mk g }, [])
    | none => st
  else st

/-- Lines 125–130 of `Parse`: the path recogniser, likewise anchored. -/
def pathStep (p : Parser) (st : NewResult × List Char) : NewResult × List Char :=
  if p.parsePath then
    match pathMatch st.2 with
    | some g => ({ st.1 with Path := String.mk g }, [])
    | none => st
  else st

/-- Lines 132–139 of `Parse`: query capture, or rejection of leftover
input when query capture is disabled. -/
def finishStep (p : Parser) (st : NewResult × List Char) : NewResult :=
  if p.parseQuery then { st.1 with Query := String.mk (trimQuery st.2) }
  else if st.2.isEmpty then st.1
  else {}

/-- Method `func (p *Parser) Parse(input string) *NewResult` (lines 61–140),
assembled from the step functions above; an early `return &NewResult{}`
(from the default-repository fallback or the mandatory-repository check)
yields the empty result. -/
def Parser.Parse (p : Parser) (input : String) : NewResult :=
  match (defaultStep p (step12 p input.data)).bind (requireStep p) with
  | none => {}
  | some st => finishStep p (pathStep p (issueStep p st))

/-! ### The simplified entry point (parser.go lines 149–178) -/

/-- Function `func Parse(repoMap, userMap map[string]string, input string, bareUser,
ignoreNumeric bool) Result`: repository/user resolution plus trailing
query only.  Note the `ignoreNumeric` guard tests `issueRegexp` against
the whole remaining input (line 168: `issueRegexp.MatchString(input)`),
not against the matched token alone. -/
def Parse (repoMap userMap : List (String × String)) (input : String)
    (bareUser ignoreNumeric : Bool) : Result :=
  let l := input.data
  let st : Result × List Char :=
    match userRepoFind l with
    | some n =>
      let r0 := Result.SetRepo {} (String.mk (l.take n))
      let r1 :=
        match List.lookup r0.User userMap with
        | some su => { r0 with UserMatch := r0.User, User := su }
        | none => r0
      (r1, l.drop n)
    | none =>
      match userFind l with
      | some m =>
        let u := String.mk (l.take m)
        match List.lookup u repoMap with
        | some sr =>
          let r := Result.SetRepo {} sr
          ({ r with RepoMatch := u }, l.drop m)
        | none =>
          match List.lookup u userMap with
          | some su => ({ User := su, UserMatch := u }, l.drop m)
          | none =>
            if bareUser && (!ignoreNumeric || !(issueMatch l).isSome) then
              ({ User := u }, l.drop m)
            else ({}, l)
      | none => ({}, l)
  { st.1 with Query := String.mk (trimQuery st.2) }

/-! ### Helper lemmas -/

theorem mk_data (s : String) : String.mk s.data = s := rfl

theorem mk_ne_empty {l : List Char} (h : l ≠ []) : String.mk l ≠ "" := by
  intro he
  have : l = "".data := congrArg String.data he
  simp at this
  exact h this

theorem mk_bne_empty {l : List Char} (h : l ≠ []) : (String.mk l != "") = true := by
  simp only [bne_iff_ne, ne_eq]
  exact mk_ne_empty h

theorem mk_beq_empty {l : List Char} (h : l ≠ []) : (String.mk l == "") = false := by
  simp only [beq_eq_false_iff_ne, ne_eq]
  exact mk_ne_empty h

theorem mk_append_mk (a b : List Char) : String.mk a ++ String.mk b = String.mk (a ++ b) := rfl

theorem takeWhile_append_cons {α : Type} (pred : α → Bool) (l : List α) (c : α) (r : List α)
    (hl : ∀ x ∈ l, pred x = true) (hc : pred c = false) :
    (l ++ c :: r).takeWhile pred = l := by
  induction l with
  | nil => simp [List.takeWhile_cons, hc]
  | cons a t ih =>
    have ha : pred a = true := hl a (List.mem_cons_self a t)
    simp only [List.cons_append, List.takeWhile_cons, ha, if_true]
    rw [ih (fun x hx => hl x (List.mem_cons_of_mem a hx))]

theorem drop_append_cons {α : Type} (l : List α) (c : α) (r : List α) :
    (l ++ c :: r).drop (l.length + 1) = r := by
  have h1 : l ++ c :: r = (l ++ [c]) ++ r := by simp
  have h2 : (l ++ [c]).length = l.length + 1 := by simp
  rw [h1, ← h2, List.drop_left]

theorem splitRepo_mk (own name : List Char) (h : '/' ∉ own) :
    splitRepo (String.mk (own ++ '/' :: name)) = (String.mk own, String.mk name) := by
  unfold splitRepo
  have h1 : (own ++ '/' :: name).takeWhile (fun c => c != '/') = own := by
    apply takeWhile_append_cons
    · intro x hx
      simp only [bne_iff_ne, ne_eq]
      intro he
      exact h (he ▸ hx)
    · simp
  simp only [h1]
  rw [drop_append_cons]

theorem issueMatch_digits (l : List Char) (hne : l ≠ [])
    (hdig : l.all isDigitChar = true) (hz : l.head? ≠ some '0') :
    issueMatch l = some l := by
  cases l with
  | nil => exact absurd rfl hne
  | cons c t =>
    simp only [List.all_cons, Bool.and_eq_true] at hdig
    obtain ⟨hc, ht⟩ := hdig
    have hc0 : c ≠ '0' := by
      intro he
      simp [he] at hz
    have hcs : c ≠ ' ' := by
      intro he; rw [he] at hc; exact absurd hc (by decide)
    have hch : c ≠ '#' := by
      intro he; rw [he] at hc; exact absurd hc (by decide)
    unfold issueMatch stripOne
    simp [hcs, hch, hc, hc0, ht]

theorem mk_slash_append (a b : List Char) :
    String.mk a ++ "/" ++ String.mk b = String.mk (a ++ '/' :: b) := by
  have h : ("/" : String) = String.mk ['/'] := rfl
  rw [h, mk_append_mk, mk_append_mk]
  simp

/-- Lines 73–88 in the plain-bare-user case: a bare token that is a key of
neither table, with bare users enabled, is recorded verbatim as the user
and the input advanced past it. -/
theorem step12_bare_plain (p : Parser) (l : List Char) (m : Nat)
    (hr : p.parseRepo = true) (hpu : p.parseUser = true)
    (hur : userRepoFind l = none) (hu : userFind l = some m)
    (hrm : List.lookup (String.mk (l.take m)) p.repoMap = none)
    (hum : List.lookup (String.mk (l.take m)) p.userMap = none) :
    step12 p l = ({ User := String.mk (l.take m) }, l.drop m) := by
  unfold step12
  rw [hr]
  simp [hur, hu, hrm, hum, hpu]

theorem issueStep_nil (p : Parser) (r : NewResult) : issueStep p (r, []) = (r, []) := by
  unfold issueStep
  cases hpi : p.parseIssue <;> simp [issueMatch, stripOne]

theorem pathStep_nil (p : Parser) (r : NewResult) : pathStep p (r, []) = (r, []) := by
  unfold pathStep
  cases hpp : p.parsePath <;> simp [pathMatch, stripOne]

theorem parse_eq_of_some (p : Parser) (input : String) (st : NewResult × List Char)
    (h : (defaultStep p (step12 p input.data)).bind (requireStep p) = some st) :
    p.Parse input = finishStep p (pathStep p (issueStep p st)) := by
  unfold Parser.Parse
  rw [h]

theorem parse_eq_of_none (p : Parser) (input : String)
    (h : (defaultStep p (step12 p input.data)).bind (requireStep p) = none) :
    p.Parse input = {} := by
  unfold Parser.Parse
  rw [h]

/-! ### Sanity checks of the regex models on concrete inputs -/

example : userFind "alice ".data = some 5 := by decide
example : userFind "a-".data = some 1 := by decide
example : userFind "ab_c".data = none := by decide
example : userFind "-a".data = none := by decide
example : userRepoFind "foo/bar".data = some 7 := by decide
example : userRepoFind "foo/bar baz".data = some 7 := by decide
example : userRepoFind "a/b.c!".data = some 5 := by decide
example : userRepoFind "a/b.!".data = some 3 := by decide
example : userRepoFind "foo/!".data = none := by decide
example : userRepoFind "foo/".data = some 4 := by decide
example : issueMatch " #42".data = some "42".data := by decide
example : issueMatch "#42".data = some "42".data := by decide
example : issueMatch "0".data = none := by decide
example : issueMatch "#01".data = none := by decide
example : issueMatch "12 x".data = none := by decide
example : pathMatch " /issues/5".data = some "/issues/5".data := by decide
example : pathMatch "/a b".data = none := by decide
example : trimQuery "  a  ".data = " a".data := by decide

/-! ### Claim theorems -/

/-- C7: with every capability disabled except query capture, matching any
input yields a result whose only possibly-populated field is `query`,
equal to the whole input with exactly one leading space and all trailing
spaces removed; with query capture disabled as well, every non-empty input
yields the empty Result. -/
theorem C7_query_only (rm um : List (String × String)) (d : String) (input : String) :
    Parser.Parse { repoMap := rm, userMap := um, defaultRepo := d, parseQuery := true } input
      = { Query := String.mk (trimQuery input.data) }
    ∧ (input ≠ "" →
        Parser.Parse { repoMap := rm, userMap := um, defaultRepo := d } input = {}) := by
  constructor
  · simp [Parser.Parse, step12, defaultStep, requireStep, issueStep, pathStep, finishStep]
  · intro hne
    have hdata : ¬input.data.isEmpty := by
      simp only [List.isEmpty_iff]
      intro h
      exact hne (by rw [← mk_data input, h])
    simp [Parser.Parse, step12, defaultStep, requireStep, issueStep, pathStep, finishStep, hdata]

/-- C7 witness: the query-only matcher on `" hi  "` and the all-disabled
matcher on `"x"`. -/
theorem C7_query_witness :
    Parser.Parse { parseQuery := true } " hi  " = { Query := String.mk (trimQuery " hi  ".data) }
    ∧ Parser.Parse {} "x" = ({} : NewResult) :=
  ⟨(C7_query_only [] [] "" " hi  ").1, (C7_query_only [] [] "" "x").2 (by decide)⟩

/-- C2: with query capture disabled, whenever unconsumed input remains
after all enabled recognisers have run (the repo/user step, the
default-repository fallback, the mandatory-repository check, the issue
step and the path step), `Parse` returns the fully empty Result — no
partially-populated result escapes. -/
theorem C2_leftover_rejection (p : Parser) (input : String) (st : NewResult × List Char)
    (hq : p.parseQuery = false)
    (hst : (defaultStep p (step12 p input.data)).bind (requireStep p) = some st)
    (hleft : (pathStep p (issueStep p st)).2 ≠ []) :
    p.Parse input = {} := by
  unfold Parser.Parse
  rw [hst]
  have hne : ¬(pathStep p (issueStep p st)).2.isEmpty := by
    simp only [List.isEmpty_iff]
    exact hleft
  simp [finishStep, hq, hne]

/-- C2 witness: the all-disabled matcher on `"!"` leaves the leftover
`"!"` and yields the empty Result. -/
theorem C2_leftover_witness : Parser.Parse {} "!" = {} :=
  C2_leftover_rejection {} "!" ({}, "!".data) rfl (by decide) (by decide)

/-- C9: with an empty configured default repository the default-repository
fallback (and with it both the digit-as-issue reinterpretation and the
digit-plus-leftover rejection) is skipped entirely: `Parse` is the plain
pipeline of the recognisers, and a digit-only bare token stays in the user
field, leftover going through the ordinary query rules. -/
theorem C9_empty_default (p : Parser) (input : String) (hd : p.defaultRepo = "") :
    defaultStep p (step12 p input.data) = some (step12 p input.data)
    ∧ p.Parse input =
        (match requireStep p (step12 p input.data) with
         | none => {}
         | some st => finishStep p (pathStep p (issueStep p st)))
    ∧ Parser.Parse
        { defaultRepo := "", parseRepo := true, parseUser := true, parseQuery := true } "123 x"
        = { User := "123", Query := "x" } := by
  have h1 : defaultStep p (step12 p input.data) = some (step12 p input.data) := by
    unfold defaultStep
    simp [hd]
  refine ⟨h1, ?_, by decide⟩
  unfold Parser.Parse
  rw [h1]
  rfl

/-- C9 witness: a repo+user+query matcher with empty default repository on
input `"123 x"`. -/
theorem C9_empty_default_witness :
    Parser.Parse { defaultRepo := "", parseRepo := true, parseUser := true, parseQuery := true }
        "123 x" = { User := "123", Query := "x" } :=
  (C9_empty_default { defaultRepo := "" } "" rfl).2.2

/-- C10: in the simplified entry point, a leading bare token that is a key
of the user table is expanded and recorded as the user with the shorthand
noted, for every value of the `bareUser` and `ignoreNumeric` flags; the
`bareUser` flag only governs bare tokens that are keys of neither table
(with `bareUser` false such a token is left for the query). -/
theorem C10_userkey_flag_independent (rm um : List (String × String)) (input : String)
    (bu ig : Bool) (m : Nat)
    (hur : userRepoFind input.data = none)
    (hu : userFind input.data = some m) :
    (∀ su, List.lookup (String.mk (input.data.take m)) rm = none →
        List.lookup (String.mk (input.data.take m)) um = some su →
        Parse rm um input bu ig =
          { User := su, UserMatch := String.mk (input.data.take m),
            Query := String.mk (trimQuery (input.data.drop m)) })
    ∧ (List.lookup (String.mk (input.data.take m)) rm = none →
        List.lookup (String.mk (input.data.take m)) um = none →
        Parse rm um input false ig = { Query := String.mk (trimQuery input.data) }) := by
  constructor
  · intro su hrm hum
    simp [Parse, hur, hu, hrm, hum]
  · intro hrm hum
    simp [Parse, hur, hu, hrm, hum]

/-- C10 witness: tables `{"z": "zed"}` for users, flags chosen adversely
(`bareUser` false), input `"z hello"`. -/
theorem C10_userkey_witness :
    Parse [] [("z", "zed")] "z hello" false true =
      { User := "zed", UserMatch := String.mk ("z hello".data.take 1),
        Query := String.mk (trimQuery ("z hello".data.drop 1)) } :=
  (C10_userkey_flag_independent [] [("z", "zed")] "z hello" false true 1 (by decide)
      (by decide)).1 "zed" (by decide) (by decide)

/-- C4 counterexample: with `bareUser` and `ignoreNumeric` both true and
input `"123 extra"`, the claim asserts the digit token is suppressed from
user-matching (user absent, whole text as query); the code instead matches
`"123"` as the bare user, because line 168 tests the issue pattern against
the whole remaining input, which fails once text follows the digits. -/
theorem C4_trailing_text_counterexample :
    (Parse [] [] "123 extra" true true).User = "123"
    ∧ (Parse [] [] "123 extra" true true).Query = "extra" := by decide

/-- C4 amended: with `ignoreNumeric` and `bareUser` true and a leading
bare token that is a key of neither table, the token is suppressed from
user-matching (falling through to the query) exactly when the issue
pattern matches the whole remaining input — i.e. when the input is the
digit token alone; when the pattern fails (in particular when further text
follows the token) the token is matched as the bare user. -/
theorem C4_numeric_suppression_amended (rm um : List (String × String)) (input : String)
    (m : Nat)
    (hur : userRepoFind input.data = none)
    (hu : userFind input.data = some m)
    (hrm : List.lookup (String.mk (input.data.take m)) rm = none)
    (hum : List.lookup (String.mk (input.data.take m)) um = none) :
    ((issueMatch input.data).isSome = true →
        Parse rm um input true true = { Query := String.mk (trimQuery input.data) })
    ∧ (issueMatch input.data = none →
        Parse rm um input true true =
          { User := String.mk (input.data.take m),
            Query := String.mk (trimQuery (input.data.drop m)) }) := by
  constructor <;> intro hiss <;> simp [Parse, hur, hu, hrm, hum, hiss]

/-- C4 witness: inputs `"123"` (suppressed, becomes the query) and
`"123 extra"` (matched as a bare user). -/
theorem C4_numeric_suppression_witness :
    Parse [] [] "123" true true = { Query := String.mk (trimQuery "123".data) }
    ∧ Parse [] [] "123 extra" true true =
        { User := String.mk ("123 extra".data.take 3),
          Query := String.mk (trimQuery ("123 extra".data.drop 3)) } :=
  ⟨(C4_numeric_suppression_amended [] [] "123" 3 (by decide) (by decide) (by decide)
      (by decide)).1 (by decide),
   (C4_numeric_suppression_amended [] [] "123 extra" 3 (by decide) (by decide) (by decide)
      (by decide)).2 (by decide)⟩

/-- C5 counterexample: a parser with bare-user matching enabled but
repository-matching disabled never matches a bare token: the whole
recogniser block of lines 64–88 sits inside `if p.parseRepo`, so on input
`"alice"` the user field stays empty (the input falls through to the
query), where the claim asserts `user = "alice"`. -/
theorem C5_user_without_repo_counterexample :
    (Parser.Parse { parseUser := true, parseQuery := true } "alice").User ≠ "alice"
    ∧ Parser.Parse { parseUser := true, parseQuery := true } "alice" = { Query := "alice" } := by
  decide

/-- C5 amended: for every parser with repository-matching AND bare-user
matching enabled, a leading bare identifier token (no owner/name shape) is
resolved as: repository shorthand when a key of the repository table
(recording the token), else as the user, expanded through the user table
when a key there (recording the shorthand). -/
theorem C5_bare_token_amended (p : Parser) (input : String) (m : Nat)
    (hr : p.parseRepo = true) (hpu : p.parseUser = true)
    (hur : userRepoFind input.data = none)
    (hu : userFind input.data = some m) :
    (∀ sr, List.lookup (String.mk (input.data.take m)) p.repoMap = some sr →
        step12 p input.data =
          ({ NewResult.SetRepo {} sr with RepoShorthand := String.mk (input.data.take m) },
            input.data.drop m))
    ∧ (List.lookup (String.mk (input.data.take m)) p.repoMap = none →
        (∀ su, List.lookup (String.mk (input.data.take m)) p.userMap = some su →
            step12 p input.data =
              ({ User := su, UserShorthand := String.mk (input.data.take m) },
                input.data.drop m))
        ∧ (List.lookup (String.mk (input.data.take m)) p.userMap = none →
            step12 p input.data =
              ({ User := String.mk (input.data.take m) }, input.data.drop m))) := by
  refine ⟨fun sr hrm => ?_, fun hrm => ⟨fun su hum => ?_, fun hum => ?_⟩⟩
  · unfold step12; rw [hr]; simp [hur, hu, hrm, hpu]
  · unfold step12; rw [hr]; simp [hur, hu, hrm, hum, hpu]
  · unfold step12; rw [hr]; simp [hur, hu, hrm, hum, hpu]

/-- C5 witness: repo table `{"wp": "my/widgets"}`, user table
`{"z": "zed"}`, tokens `"wp"`, `"z"` and `"alice"`. -/
theorem C5_bare_token_witness :
    step12 { repoMap := [("wp", "my/widgets")], userMap := [("z", "zed")], parseRepo := true, parseUser := true } "wp".data =
      ({ NewResult.SetRepo {} "my/widgets" with
          RepoShorthand := String.mk ("wp".data.take 2) }, "wp".data.drop 2)
    ∧ step12 { repoMap := [("wp", "my/widgets")], userMap := [("z", "zed")], parseRepo := true, parseUser := true } "z".data =
      ({ User := "zed", UserShorthand := String.mk ("z".data.take 1) }, "z".data.drop 1)
    ∧ step12 { repoMap := [("wp", "my/widgets")], userMap := [("z", "zed")], parseRepo := true, parseUser := true } "alice".data =
      ({ User := String.mk ("alice".data.take 5) }, "alice".data.drop 5) :=
  ⟨(C5_bare_token_amended _ "wp" 2 rfl rfl (by decide) (by decide)).1 "my/widgets" (by decide),
   ((C5_bare_token_amended _ "z" 1 rfl rfl (by decide) (by decide)).2 (by decide)).1 "zed"
      (by decide),
   ((C5_bare_token_amended _ "alice" 5 rfl rfl (by decide) (by decide)).2 (by decide)).2
      (by decide)⟩

/-- C3: when the input starts with a full owner/name-shaped token and
repository-matching is enabled, the literal text of that token becomes the
repository — the conclusion does not depend on the repository table, so a
repository-table entry for the owner alone cannot win; concretely, input
`"foo/bar"` with table `{"foo": "baz"}` yields repository `"foo/bar"` in
the configurable matcher and in the simplified entry point alike.
(The owner is assumed not to be a user-table key, which would rewrite the
owner portion through the separate user-shorthand expansion.) -/
theorem C3_slash_precedence (p : Parser) (input : String) (n : Nat) (bu ig : Bool)
    (hr : p.parseRepo = true)
    (hfind : userRepoFind input.data = some n)
    (howner : List.lookup (NewResult.SetRepo {} (String.mk (input.data.take n))).User
        p.userMap = none) :
    step12 p input.data =
      (NewResult.SetRepo {} (String.mk (input.data.take n)), input.data.drop n)
    ∧ (Parser.Parse { repoMap := [("foo", "baz")], parseRepo := true } "foo/bar").repository
        = "foo/bar"
    ∧ (Parse [("foo", "baz")] [] "foo/bar" bu ig).repository = "foo/bar" := by
  refine ⟨?_, by decide, ?_⟩
  · unfold step12
    rw [hr]
    simp [hfind, howner]
  · cases bu <;> cases ig <;> decide

/-- C3 witness: the general part at the `"foo/bar"` instance with
repository table `{"foo": "baz"}`. -/
theorem C3_slash_witness :
    step12 { repoMap := [("foo", "baz")], parseRepo := true } "foo/bar".data =
      (NewResult.SetRepo {} (String.mk ("foo/bar".data.take 7)), "foo/bar".data.drop 7) :=
  (C3_slash_precedence { repoMap := [("foo", "baz")], parseRepo := true } "foo/bar" 7
      true true rfl (by decide) (by decide)).1

/-- C1 counterexample: `"0123"` is a pure-digit leading bare token that is
a key of neither table, with a non-empty default repository configured and
no unconsumed input after the token, yet `Parse` does not return the
default repository with issue `"0123"`: the reinterpretation is guarded by
`issueRegexp`, whose `[1-9]\d*` rejects a leading zero, so the token stays
in the user field with no repository. -/
theorem C1_pure_digit_counterexample :
    Parser.Parse { defaultRepo := "org/repo", parseRepo := true, parseUser := true } "0123"
      = { User := "0123" }
    ∧ ¬ ((Parser.Parse { defaultRepo := "org/repo", parseRepo := true, parseUser := true }
            "0123").repository = "org/repo"
        ∧ (Parser.Parse { defaultRepo := "org/repo", parseRepo := true, parseUser := true }
            "0123").Issue = "0123") := by
  decide

/-- C1 amended: for every parser with repository- and bare-user matching
enabled and a non-empty default repository (of canonical `owner/name`
form), when the leading bare token is a digit string with no leading zero
(the issue-number shape) and is a key of neither table: with no unconsumed
input after the token, `Parse` returns the default repository as the
repository and the token as the issue with the bare-user field absent;
with any input remaining, `Parse` returns the fully empty Result. -/
theorem C1_default_digit_amended (p : Parser) (input : String) (m : Nat)
    (down dname : List Char)
    (hr : p.parseRepo = true) (hpu : p.parseUser = true)
    (hd : p.defaultRepo = String.mk (down ++ '/' :: dname))
    (hdown : '/' ∉ down) (hdown0 : down ≠ []) (hdname0 : dname ≠ [])
    (hur : userRepoFind input.data = none)
    (hu : userFind input.data = some m)
    (hrm : List.lookup (String.mk (input.data.take m)) p.repoMap = none)
    (hum : List.lookup (String.mk (input.data.take m)) p.userMap = none)
    (htok : input.data.take m ≠ [])
    (hdig : (input.data.take m).all isDigitChar = true)
    (hlead : (input.data.take m).head? ≠ some '0') :
    (input.data.drop m = [] →
        (p.Parse input).repository = p.defaultRepo
        ∧ (p.Parse input).Issue = String.mk (input.data.take m)
        ∧ (p.Parse input).HasUser = false)
    ∧ (input.data.drop m ≠ [] → p.Parse input = {}) := by
  have hstep : step12 p input.data =
      ({ User := String.mk (input.data.take m) }, input.data.drop m) :=
    step12_bare_plain p input.data m hr hpu hur hu hrm hum
  have hiss : issueMatch (input.data.take m) = some (input.data.take m) :=
    issueMatch_digits _ htok hdig hlead
  have hd_ne : (p.defaultRepo != "") = true := by
    rw [hd]; exact mk_bne_empty (by simp)
  have hsplit : splitRepo p.defaultRepo = (String.mk down, String.mk dname) := by
    rw [hd]; exact splitRepo_mk down dname hdown
  have htokne : (String.mk (input.data.take m) != "") = true := mk_bne_empty htok
  constructor
  · intro hdrop
    rw [hdrop] at hstep
    have hdef : defaultStep p ({ User := String.mk (input.data.take m) }, ([] : List Char)) = some ({ User := String.mk down, Repo := String.mk dname, Issue := String.mk (input.data.take m) }, []) := by
      unfold defaultStep
      simp [NewResult.HasRepo, NewResult.HasUser, hr, hpu, htokne, hd_ne, hiss,
            NewResult.SetRepo, hsplit]
    have hbind : (defaultStep p (step12 p input.data)).bind (requireStep p) = some ({ User := String.mk down, Repo := String.mk dname, Issue := String.mk (input.data.take m) }, []) := by
      rw [hstep, hdef]
      unfold requireStep
      simp [NewResult.HasRepo, mk_ne_empty hdown0, mk_ne_empty hdname0]
    rw [parse_eq_of_some p input _ hbind, issueStep_nil, pathStep_nil]
    have hrepo : String.mk down ++ "/" ++ String.mk dname = p.defaultRepo := by
      rw [mk_slash_append, hd]
    cases hq : p.parseQuery <;>
      simp [finishStep, hq, NewResult.repository, NewResult.HasRepo, NewResult.HasUser,
            mk_bne_empty hdown0, mk_bne_empty hdname0, mk_beq_empty hdname0, trimQuery, hrepo]
  · intro hdrop
    have hne : ¬(input.data.drop m).isEmpty := by
      simp only [List.isEmpty_iff]
      exact hdrop
    have hdef : defaultStep p ({ User := String.mk (input.data.take m) }, input.data.drop m) = none := by
      unfold defaultStep
      simp [NewResult.HasRepo, NewResult.HasUser, hr, hpu, htokne, hd_ne, hiss, hne]
    apply parse_eq_of_none
    rw [hstep, hdef]
    rfl

/-- C1 witness: default repository `"org/repo"`, inputs `"123"` (resolved
as default repository plus issue) and `"123 extra"` (rejected). -/
theorem C1_default_digit_witness :
    ((Parser.Parse { defaultRepo := "org/repo", parseRepo := true, parseUser := true } "123").repository = "org/repo"
      ∧ (Parser.Parse { defaultRepo := "org/repo", parseRepo := true, parseUser := true } "123").Issue = String.mk ("123".data.take 3)
      ∧ (Parser.Parse { defaultRepo := "org/repo", parseRepo := true, parseUser := true } "123").HasUser = false)
    ∧ Parser.Parse { defaultRepo := "org/repo", parseRepo := true, parseUser := true } "123 extra" = {} :=
  ⟨(C1_default_digit_amended _ "123" 3 "org".data "repo".data rfl rfl (by decide) (by decide)
      (by decide) (by decide) (by decide) (by decide) (by decide) (by decide) (by decide)
      (by decide) (by decide)).1 (by decide),
   (C1_default_digit_amended _ "123 extra" 3 "org".data "repo".data rfl rfl (by decide)
      (by decide) (by decide) (by decide) (by decide) (by decide) (by decide) (by decide)
      (by decide) (by decide) (by decide)).2 (by decide)⟩

/-- C8: matching a canonical `owner/name` string that the owner/repo
grammar accepts in full, that is not a repository-table key and whose
owner is not a user-table key, reproduces exactly that string as the
repository with neither shorthand field set. -/
theorem C8_idempotence (p : Parser) (s : String) (own name : List Char)
    (hr : p.parseRepo = true)
    (hs : s = String.mk (own ++ '/' :: name))
    (hown : '/' ∉ own) (hown0 : own ≠ []) (hname0 : name ≠ [])
    (hfull : userRepoFind s.data = some s.data.length)
    (_hkey : List.lookup s p.repoMap = none)
    (huser : List.lookup (String.mk own) p.userMap = none) :
    (p.Parse s).repository = s
    ∧ (p.Parse s).RepoShorthand = "" ∧ (p.Parse s).UserShorthand = "" := by
  have hsplit : splitRepo s = (String.mk own, String.mk name) := by
    rw [hs]; exact splitRepo_mk own name hown
  have htake : s.data.take s.data.length = s.data := List.take_length s.data
  have hdropall : s.data.drop s.data.length = [] := List.drop_length s.data
  have htake2 : s.data.take s.length = s.data := List.take_length s.data
  have hdropall2 : s.data.drop s.length = [] := List.drop_length s.data
  have hstep : step12 p s.data = ({ User := String.mk own, Repo := String.mk name }, []) := by
    unfold step12
    rw [hr, hfull]
    simp [htake, hdropall, htake2, hdropall2, mk_data, NewResult.SetRepo, hsplit, huser]
  have hdef : defaultStep p ({ User := String.mk own, Repo := String.mk name }, ([] : List Char)) = some ({ User := String.mk own, Repo := String.mk name }, []) := by
    unfold defaultStep
    simp [NewResult.HasRepo, mk_bne_empty hown0, mk_bne_empty hname0]
  have hbind : (defaultStep p (step12 p s.data)).bind (requireStep p) = some ({ User := String.mk own, Repo := String.mk name }, []) := by
    rw [hstep, hdef]
    unfold requireStep
    simp [NewResult.HasRepo, mk_ne_empty hown0, mk_ne_empty hname0]
  have hrepo : String.mk own ++ "/" ++ String.mk name = s := by
    rw [mk_slash_append, hs]
  rw [parse_eq_of_some p s _ hbind, issueStep_nil, pathStep_nil]
  cases hq : p.parseQuery <;>
    simp [finishStep, hq, NewResult.repository, NewResult.HasRepo,
          mk_bne_empty hown0, mk_bne_empty hname0, trimQuery, hrepo]

/-- C8 witness: the canonical form `"zerowidth/camper-van"` against a
matcher whose tables do not mention it. -/
theorem C8_idempotence_witness :
    (Parser.Parse { repoMap := [("wp", "my/widgets")], userMap := [("z", "zed")], parseRepo := true } "zerowidth/camper-van").repository = "zerowidth/camper-van"
    ∧ (Parser.Parse { repoMap := [("wp", "my/widgets")], userMap := [("z", "zed")], parseRepo := true } "zerowidth/camper-van").RepoShorthand = ""
    ∧ (Parser.Parse { repoMap := [("wp", "my/widgets")], userMap := [("z", "zed")], parseRepo := true } "zerowidth/camper-van").UserShorthand = "" :=
  C8_idempotence _ "zerowidth/camper-van" "zerowidth".data "camper-van".data rfl (by decide)
    (by decide) (by decide) (by decide) (by decide) (by decide) (by decide)

/-- Declarative reading of the claim's issue grammar: the input is exactly
an optional single space, then an optional `#`, then the digit group `g` —
one or more digits with no leading zero — with nothing after it. -/
def IssueShape (l g : List Char) : Prop :=
  ∃ sp hsh : List Char,
    l = sp ++ hsh ++ g ∧ (sp = [] ∨ sp = [' ']) ∧ (hsh = [] ∨ hsh = ['#'])
    ∧ g ≠ [] ∧ (∀ c ∈ g, isDigitChar c = true) ∧ g.head? ≠ some '0'

theorem stripOne_cases (c : Char) (l : List Char) :
    stripOne c l = l ∨ l = c :: stripOne c l := by
  cases l with
  | nil => exact Or.inl rfl
  | cons x t =>
    by_cases h : x = c
    · subst h; right; simp [stripOne]
    · left; simp [stripOne, h]

theorem issueMatch_shapes (g : List Char) (hne : g ≠ [])
    (hall : ∀ c ∈ g, isDigitChar c = true) (hhead : g.head? ≠ some '0') :
    issueMatch g = some g ∧ issueMatch ('#' :: g) = some g
    ∧ issueMatch (' ' :: g) = some g ∧ issueMatch (' ' :: '#' :: g) = some g := by
  cases g with
  | nil => exact absurd rfl hne
  | cons c t =>
    have hc := hall c (List.mem_cons_self c t)
    have ht : t.all isDigitChar = true := by
      rw [List.all_eq_true]
      intro x hx
      exact hall x (List.mem_cons_of_mem c hx)
    have hc0 : c ≠ '0' := by
      intro he; simp [he] at hhead
    have hcs : c ≠ ' ' := by
      intro he; rw [he] at hc; exact absurd hc (by decide)
    have hch : c ≠ '#' := by
      intro he; rw [he] at hc; exact absurd hc (by decide)
    refine ⟨?_, ?_, ?_, ?_⟩ <;> simp [issueMatch, stripOne, hcs, hch, hc, hc0, ht]

theorem issueMatch_some_iff (l g : List Char) :
    issueMatch l = some g ↔ IssueShape l g := by
  constructor
  · intro h
    unfold issueMatch at h
    rcases hl2 : stripOne '#' (stripOne ' ' l) with _ | ⟨c, t⟩ <;> rw [hl2] at h
    · exact absurd h (by simp)
    · by_cases hcond : (isDigitChar c && c != '0' && t.all isDigitChar) = true
      · have hg : c :: t = g := by simpa [hcond] using h
        simp only [Bool.and_eq_true, bne_iff_ne, ne_eq] at hcond
        obtain ⟨⟨hc, hc0⟩, ht⟩ := hcond
        have hprops : g ≠ [] ∧ (∀ x ∈ g, isDigitChar x = true) ∧ g.head? ≠ some '0' := by
          rw [← hg]
          refine ⟨by simp, ?_, by simpa using hc0⟩
          intro x hx
          rcases List.mem_cons.mp hx with rfl | hx
          · exact hc
          · exact List.all_eq_true.mp ht x hx
        have hstrip : stripOne '#' (stripOne ' ' l) = g := by rw [hl2, hg]
        rcases stripOne_cases ' ' l with h1 | h1 <;>
          rcases stripOne_cases '#' (stripOne ' ' l) with h2 | h2
        · refine ⟨[], [], ?_, Or.inl rfl, Or.inl rfl, hprops⟩
          simp only [List.nil_append]
          rw [← hstrip, h2, h1]
        · refine ⟨[], ['#'], ?_, Or.inl rfl, Or.inr rfl, hprops⟩
          simp only [List.nil_append, List.cons_append]
          rw [← hstrip, ← h2, h1]
        · refine ⟨[' '], [], ?_, Or.inr rfl, Or.inl rfl, hprops⟩
          simp only [List.nil_append, List.cons_append, List.append_nil]
          rw [← hstrip, h2, ← h1]
        · refine ⟨[' '], ['#'], ?_, Or.inr rfl, Or.inr rfl, hprops⟩
          simp only [List.nil_append, List.cons_append]
          rw [← hstrip, ← h2, ← h1]
      · simp [hcond] at h
  · rintro ⟨sp, hsh, rfl, hsp, hhsh, hne, hall, hhead⟩
    have hs := issueMatch_shapes g hne hall hhead
    rcases hsp with rfl | rfl <;> rcases hhsh with rfl | rfl
    · simpa using hs.1
    · simpa using hs.2.1
    · simpa using hs.2.2.1
    · simpa using hs.2.2.2

/-- C6: with issue-matching enabled, the issue step records an issue and
consumes the rest of the input exactly when the remaining input is an
optional single space, an optional `#`, then one or more digits with no
leading zero, anchored to the end of the remaining input; in particular
`"0"`, `"#01"` and a digit run followed by further text are never
recognised at this step. -/
theorem C6_issue_recognition (p : Parser) (res : NewResult) (l : List Char)
    (hpi : p.parseIssue = true) :
    (∀ g, issueMatch l = some g ↔ IssueShape l g)
    ∧ (issueMatch l = none → issueStep p (res, l) = (res, l))
    ∧ (∀ g, issueMatch l = some g →
        issueStep p (res, l) = ({ res with Issue := String.mk g }, []))
    ∧ issueMatch "0".data = none ∧ issueMatch "#01".data = none
    ∧ issueMatch "12 x".data = none := by
  refine ⟨fun g => issueMatch_some_iff l g, fun hn => ?_, fun g hg => ?_,
    by decide, by decide, by decide⟩
  · unfold issueStep
    rw [hpi]
    simp [hn]
  · unfold issueStep
    rw [hpi]
    simp [hg]

/-- C6 witness: the issue step on remaining input `" #42"`. -/
theorem C6_issue_witness :
    issueStep { parseIssue := true } ({}, " #42".data) = ({ Issue := String.mk "42".data }, []) :=
  (C6_issue_recognition { parseIssue := true } {} " #42".data rfl).2.2.1 "42".data (by decide)

end GhShorthand
